import Mathlib

/-!
Verification of `pairwise_group_classification.py` from the
signatures-psychiatry repository.

The script classifies participants into clinical groups (healthy, bipolar,
borderline). We embed its data model and operations shallowly:

* points on the plane are pairs over a linear ordered field `α`
  (instantiated at `ℚ` for executable witnesses and at `ℝ` where the source
  uses `np.sqrt`);
* `np.linalg.norm(p0 - p)` comparisons are modelled through the squared
  Euclidean distance `sqDist`: the square root is strictly monotone on
  nonnegative reals, so every comparison performed by the source
  (`m[0] > dist`, and the `m[0] == -1` sentinel test, distances being
  nonnegative) has the same outcome on squared distances; the actual
  Euclidean distance `Real.sqrt (sqDist _ _)` appears in the statements;
* the fallible operations (numpy indexing `threshold[d]`, Python's
  `list.index`) return `Option`, a raised exception being `none`;
* external collaborators (`tosig.stream2sig`, the random forest,
  `accuracy_score`, `roc_auc_score`, `psychiatry.buildData`) are opaque
  function parameters: the script treats them as black boxes.
-/

namespace PairwiseGroupClassification

/-- Squared Euclidean distance between two points of the plane, the square of
`np.linalg.norm(p0 - np.array(p))` from `_findMin`. -/
def sqDist {α : Type} [LinearOrderedField α] (p0 p : α × α) : α :=
  (p0.1 - p.1) ^ 2 + (p0.2 - p.2) ^ 2

/-- One iteration of the loop of `_findMin`:
`if m[0]==-1 or m[0]>dist: m = (dist, p0)`, with `dist` the (squared)
distance from `p0` to `p`. -/
def findMinStep {α : Type} [LinearOrderedField α] (p : α × α)
    (m : α × (α × α)) (p0 : α × α) : α × (α × α) :=
  let dist := sqDist p0 p
  if m.1 = -1 ∨ m.1 > dist then (dist, p0) else m

/-- `_findMin(p, A)`: starting from the sentinel `m = (-1, (0, 0))`, scan `A`
and keep the first point realising the least distance to `p`; return `m[1]`. -/
def _findMin {α : Type} [LinearOrderedField α] (p : α × α)
    (A : List (α × α)) : α × α :=
  (A.foldl (findMinStep p) (-1, (0, 0))).2

/-- A participant: a time series `data` (abstract, consumed only by
`tosig.stream2sig`) and a `diagnosis` used as an index into `threshold`. -/
structure Participant (D : Type) where
  data : D
  diagnosis : Nat
  deriving DecidableEq

/-- Sequential loop that applies a fallible operation to every element,
collecting the results in order; the first raised exception (`none`) aborts
the whole computation, as an uncaught Python exception would. -/
def mapOrFail {β γ : Type} (f : β → Option γ) : List β → Option (List γ)
  | [] => some []
  | a :: l =>
    match f a, mapOrFail f l with
    | some b, some bs => some (b :: bs)
    | _, _ => none

/-- Python's `list.index`: the first position of `v` in `l`, or an exception
(`none`) when `v` does not occur. -/
def listIndex {β : Type} [DecidableEq β] (l : List β) (v : β) : Option Nat :=
  match l with
  | [] => none
  | a :: l => if a = v then some 0 else (listIndex l v).map (· + 1)

/-- The loop shared by `fit` and `test`: for each participant, in collection
order, append the order-`order` signature of its data stream to `x` and the
anchor `threshold[X.diagnosis]` to `y`. Indexing `threshold` out of range
raises (`none`). -/
def buildXY {D Sg α : Type} [LinearOrderedField α]
    (stream2sig : D → Nat → Sg) (collection : List (Participant D))
    (threshold : List (α × α)) (order : Nat) :
    Option (List Sg × List (α × α)) :=
  match mapOrFail (fun X => threshold[X.diagnosis]?) collection with
  | some y => some (collection.map (fun X => stream2sig X.data order), y)
  | none => none

/-- `fit(collection, threshold, order=2)`: build `x`, `y` and train the
random forest on them. The regressor type `Rg` and the training function are
abstract (sklearn). -/
def fit {D Sg Rg α : Type} [LinearOrderedField α]
    (stream2sig : D → Nat → Sg)
    (randomForestFit : List Sg → List (α × α) → Rg)
    (collection : List (Participant D)) (threshold : List (α × α))
    (order : Nat := 2) : Option Rg :=
  match buildXY stream2sig collection threshold order with
  | some (x, y) => some (randomForestFit x y)
  | none => none

/-- `test(collection, reg, threshold, order=2)`: build `x`, `y`; predict a
raw point for each input; snap each prediction to the nearest anchor with
`_findMin`; convert predictions and true targets to label indices with
`list.index`; return `(accuracy_score, roc_auc_score)` of the two label
lists. `regPredict` stands for the trained regressor's `predict`, and the
two score functions for the sklearn metrics. -/
def test {D Sg α : Type} [LinearOrderedField α]
    (stream2sig : D → Nat → Sg)
    (regPredict : List Sg → List (α × α))
    (accuracy_score roc_auc_score : List Nat → List Nat → α)
    (collection : List (Participant D)) (threshold : List (α × α))
    (order : Nat := 2) : Option (α × α) :=
  match buildXY stream2sig collection threshold order with
  | none => none
  | some (x, y) =>
    let predicted_raw := regPredict x
    let predicted := predicted_raw.map
      (fun prediction => _findMin prediction threshold)
    match mapOrFail (fun val => listIndex threshold val) predicted with
    | none => none
    | some predicted_labels =>
      match mapOrFail (fun val => listIndex threshold val) y with
      | none => none
      | some y_labels =>
        some (accuracy_score y_labels predicted_labels,
          roc_auc_score y_labels predicted_labels)

/-- The three clinical groups of the `diagnosis` tuple of the script. -/
inductive Group : Type
  | healthy
  | bipolar
  | borderline
  deriving DecidableEq

/-- `diagnosis = ("healthy", "bipolar", "borderline")`. -/
def diagnosisGroups : List Group :=
  [Group.healthy, Group.bipolar, Group.borderline]

/-- The pairs visited by the nested loops
`for i, group1 in enumerate(diagnosis): for group2 in diagnosis[i+1:]`. -/
def mainPairs : List (Group × Group) :=
  (diagnosisGroups.enum.map (fun ig =>
    (diagnosisGroups.drop (ig.1 + 1)).map (fun g2 => (ig.2, g2)))).flatten

/-- The mutable state of the main script: the two results tables, one cell
per ordered pair of groups, empty (`none`, pandas `NaN`) until assigned. -/
structure MainState (α : Type) where
  accuracy_results : Group → Group → Option α
  auc_results : Group → Group → Option α

/-- The freshly created `pd.DataFrame(index=diagnosis, columns=diagnosis)`
tables: every cell empty. -/
def initState (α : Type) : MainState α :=
  ⟨fun _ _ => none, fun _ _ => none⟩

/-- `accuracy_results.loc[group1][group2] = accuracy` and
`auc_results.loc[group1][group2] = auc`: write the two scores into the
`(group1, group2)` cells, leaving every other cell as it was. -/
def recordScores {α : Type} (st : MainState α) (group1 group2 : Group)
    (scores : α × α) : MainState α :=
  { accuracy_results := fun a b =>
      if a = group1 ∧ b = group2 then some scores.1
      else st.accuracy_results a b,
    auc_results := fun a b =>
      if a = group1 ∧ b = group2 then some scores.2
      else st.auc_results a b }

/-- One iteration of the main loop: run the load/fit/test pipeline for the
pair (abstracted as `runModel`, since `psychiatry.buildData` and the trained
forest live outside this file) and record the resulting scores. -/
def runPair {α : Type} (runModel : Group → Group → α × α)
    (st : MainState α) (pr : Group × Group) : MainState α :=
  recordScores st pr.1 pr.2 (runModel pr.1 pr.2)

/-- The whole main loop: fold `runPair` over `mainPairs` starting from the
empty tables. -/
def mainRun {α : Type} (runModel : Group → Group → α × α) : MainState α :=
  mainPairs.foldl (runPair runModel) (initState α)

/-- The main loop with a fallible pipeline: the script installs no handler,
so the first exception (`none`) aborts the whole run and no state at all is
produced. -/
def mainRunE {α : Type} (runModel : Group → Group → Option (α × α)) :
    Option (MainState α) :=
  mainPairs.foldlM
    (fun st pr => (runModel pr.1 pr.2).map (recordScores st pr.1 pr.2))
    (initState α)

/-- The externally visible operations of the main script, in order. -/
inductive Event : Type
  | load (group1 group2 : Group)
  | fitCall (group1 group2 : Group)
  | testCall (group1 group2 : Group)
  | record (group1 group2 : Group)
  | printAccuracyTable
  | printAucTable
  deriving DecidableEq

/-- The sequence of operations the main script performs: for each pair in
loop order, `psychiatry.buildData`, then `fit`, then `test`, then the two
table assignments (one `record` event); after the loop, the two tables are
printed. -/
def mainTrace : List Event :=
  (mainPairs.map (fun pr =>
    [Event.load pr.1 pr.2, Event.fitCall pr.1 pr.2,
     Event.testCall pr.1 pr.2, Event.record pr.1 pr.2])).flatten
  ++ [Event.printAccuracyTable, Event.printAucTable]

/-- The hardcoded anchor array of the script,
`np.array([[1, 0], [0, 1], [-1/np.sqrt(2), -1/np.sqrt(2)]])`. -/
noncomputable def threshold : List (ℝ × ℝ) :=
  [(1, 0), (0, 1), (-(1 / Real.sqrt 2), -(1 / Real.sqrt 2))]

lemma sqDist_nonneg {α : Type} [LinearOrderedField α] (p0 p : α × α) :
    0 ≤ sqDist p0 p :=
  add_nonneg (sq_nonneg _) (sq_nonneg _)

/-- Invariant of the scanning loop of `_findMin`, for an accumulator that
already holds a genuine (squared) distance: the final accumulator either is
the initial one and every scanned point is at least as far, or it records a
strictly closer point together with the part of the list before it (all
strictly farther) and after it (all at least as far). -/
lemma foldl_findMinStep_spec {α : Type} [LinearOrderedField α] (p : α × α) :
    ∀ (A : List (α × α)) (m : α × (α × α)), 0 ≤ m.1 → m.1 = sqDist m.2 p →
      0 ≤ (A.foldl (findMinStep p) m).1 ∧
      (A.foldl (findMinStep p) m).1 = sqDist (A.foldl (findMinStep p) m).2 p ∧
      ((A.foldl (findMinStep p) m = m ∧ ∀ q ∈ A, m.1 ≤ sqDist q p) ∨
        (∃ B C, A = B ++ (A.foldl (findMinStep p) m).2 :: C ∧
          (A.foldl (findMinStep p) m).1 < m.1 ∧
          (∀ q ∈ B, (A.foldl (findMinStep p) m).1 < sqDist q p) ∧
          (∀ q ∈ C, (A.foldl (findMinStep p) m).1 ≤ sqDist q p))) := by
  intro A
  induction A with
  | nil =>
      intro m h0 hval
      refine ⟨h0, hval, Or.inl ⟨rfl, by simp⟩⟩
  | cons a A ih =>
      intro m h0 hval
      have hstep : List.foldl (findMinStep p) m (a :: A) =
          List.foldl (findMinStep p) (findMinStep p m a) A := rfl
      by_cases hlt : sqDist a p < m.1
      · -- the head is strictly closer: the accumulator is replaced
        have hcond : m.1 = -1 ∨ m.1 > sqDist a p := Or.inr hlt
        have hm' : findMinStep p m a = (sqDist a p, a) := by
          simp [findMinStep, hcond]
        rw [hstep, hm']
        obtain ⟨h0', hval', hcases⟩ :=
          ih (sqDist a p, a) (sqDist_nonneg a p) rfl
        set r := List.foldl (findMinStep p) (sqDist a p, a) A with hrdef
        refine ⟨h0', hval', Or.inr ?_⟩
        rcases hcases with ⟨heq, hall⟩ | ⟨B, C, hBC, hdec, hB, hC⟩
        · refine ⟨[], A, ?_, ?_, ?_, ?_⟩
          · simp [heq]
          · rw [heq]; exact hlt
          · simp
          · intro q hq; rw [heq]; exact hall q hq
        · refine ⟨a :: B, C, by rw [hBC]; simp, lt_trans hdec hlt, ?_, hC⟩
          intro q hq
          rcases List.mem_cons.mp hq with hq | hq
          · subst hq; exact hdec
          · exact hB q hq
      · -- the head is not closer: the accumulator is kept
        have hne : ¬ (m.1 = -1 ∨ m.1 > sqDist a p) := by
          rintro (hm1 | hgt)
          · have : (0 : α) ≤ -1 := hm1 ▸ h0
            linarith
          · exact hlt hgt
        have hm' : findMinStep p m a = m := by
          simp only [findMinStep]
          rw [if_neg hne]
        rw [hstep, hm']
        obtain ⟨h0', hval', hcases⟩ := ih m h0 hval
        set r := List.foldl (findMinStep p) m A with hrdef
        refine ⟨h0', hval', ?_⟩
        have hle : m.1 ≤ sqDist a p := le_of_not_lt hlt
        rcases hcases with ⟨heq, hall⟩ | ⟨B, C, hBC, hdec, hB, hC⟩
        · refine Or.inl ⟨heq, ?_⟩
          intro q hq
          rcases List.mem_cons.mp hq with hq | hq
          · subst hq; exact hle
          · exact hall q hq
        · refine Or.inr ⟨a :: B, C, by rw [hBC]; simp, hdec, ?_, hC⟩
          intro q hq
          rcases List.mem_cons.mp hq with hq | hq
          · subst hq; exact lt_of_lt_of_le hdec hle
          · exact hB q hq

/-- On a nonempty list, `_findMin` returns the earliest point of least
(squared) distance: the list splits around the returned point, everything
before being strictly farther and everything after at least as far. -/
lemma findMin_decomp {α : Type} [LinearOrderedField α] (p : α × α)
    (A : List (α × α)) (h : A ≠ []) :
    ∃ B C, A = B ++ _findMin p A :: C ∧
      (∀ q ∈ B, sqDist (_findMin p A) p < sqDist q p) ∧
      (∀ q ∈ C, sqDist (_findMin p A) p ≤ sqDist q p) := by
  obtain ⟨a, A', rfl⟩ := List.exists_cons_of_ne_nil h
  have hsent : findMinStep p ((-1 : α), ((0 : α), (0 : α))) a
      = (sqDist a p, a) := by
    simp [findMinStep]
  have hstep : List.foldl (findMinStep p) (-1, (0, 0)) (a :: A') =
      List.foldl (findMinStep p) (sqDist a p, a) A' := by
    rw [List.foldl_cons, hsent]
  obtain ⟨h0', hval', hcases⟩ :=
    foldl_findMinStep_spec p A' (sqDist a p, a) (sqDist_nonneg a p) rfl
  unfold _findMin
  rw [hstep]
  set r := List.foldl (findMinStep p) (sqDist a p, a) A' with hr
  rcases hcases with ⟨heq, hall⟩ | ⟨B, C, hBC, hdec, hB, hC⟩
  · refine ⟨[], A', by simp [heq], by simp, ?_⟩
    intro q hq
    rw [heq] at hval' ⊢
    rw [← hval']
    exact hall q hq
  · refine ⟨a :: B, C, by rw [hBC]; simp, ?_, ?_⟩
    · intro q hq
      rw [← hval']
      rcases List.mem_cons.mp hq with hq | hq
      · subst hq; exact hdec
      · exact hB q hq
    · intro q hq
      rw [← hval']
      exact hC q hq

/-- On a nonempty list, `_findMin` returns one of its elements. -/
lemma findMin_mem {α : Type} [LinearOrderedField α] (p : α × α)
    (A : List (α × α)) (h : A ≠ []) : _findMin p A ∈ A := by
  obtain ⟨B, C, hBC, -, -⟩ := findMin_decomp p A h
  nth_rewrite 1 [hBC]
  exact List.mem_append.mpr (Or.inr (List.mem_cons_self _ _))

/-- On a nonempty list, the point returned by `_findMin` minimises the
squared distance to `p`. -/
lemma findMin_min {α : Type} [LinearOrderedField α] (p : α × α)
    (A : List (α × α)) (h : A ≠ []) :
    ∀ q ∈ A, sqDist (_findMin p A) p ≤ sqDist q p := by
  obtain ⟨B, C, hBC, hB, hC⟩ := findMin_decomp p A h
  intro q hq
  nth_rewrite 1 [hBC] at hq
  rcases List.mem_append.mp hq with hq | hq
  · exact le_of_lt (hB q hq)
  · rcases List.mem_cons.mp hq with hq | hq
    · subst hq; exact le_refl _
    · exact hC q hq

/-- When every elementwise operation succeeds, the whole loop succeeds. -/
lemma mapOrFail_isSome {β γ : Type} (f : β → Option γ) (l : List β)
    (h : ∀ a ∈ l, (f a).isSome) : ∃ bs, mapOrFail f l = some bs := by
  induction l with
  | nil => exact ⟨[], rfl⟩
  | cons a l ih =>
      obtain ⟨b, hb⟩ :=
        Option.isSome_iff_exists.mp (h a (List.mem_cons_self a l))
      obtain ⟨bs, hbs⟩ := ih (fun x hx => h x (List.mem_cons_of_mem a hx))
      exact ⟨b :: bs, by simp [mapOrFail, hb, hbs]⟩

/-- One failing elementwise operation makes the whole loop fail. -/
lemma mapOrFail_eq_none {β γ : Type} (f : β → Option γ) (l : List β)
    (a0 : β) (hmem : a0 ∈ l) (hfail : f a0 = none) :
    mapOrFail f l = none := by
  induction l with
  | nil => cases hmem
  | cons a l ih =>
      rcases List.mem_cons.mp hmem with rfl | hmem'
      · cases hrec : mapOrFail f l <;> simp [mapOrFail, hfail, hrec]
      · cases hfa : f a <;> simp [mapOrFail, hfa, ih hmem']

/-- A successful loop produces one output per input, elementwise. -/
lemma mapOrFail_get {β γ : Type} (f : β → Option γ) :
    ∀ (l : List β) (bs : List γ), mapOrFail f l = some bs →
      bs.length = l.length ∧
      ∀ (i : Nat) (a : β), l[i]? = some a → bs[i]? = f a := by
  intro l
  induction l with
  | nil =>
      intro bs h
      simp [mapOrFail] at h
      subst h
      exact ⟨rfl, by intro i a h; simp at h⟩
  | cons a l ih =>
      intro bs h
      cases hfa : f a with
      | none => simp [mapOrFail, hfa] at h
      | some b =>
          cases hrec : mapOrFail f l with
          | none => simp [mapOrFail, hfa, hrec] at h
          | some bs' =>
              simp [mapOrFail, hfa, hrec] at h
              subst h
              obtain ⟨hlen, hget⟩ := ih bs' hrec
              refine ⟨by simp [hlen], ?_⟩
              intro i x hx
              cases i with
              | zero =>
                  rw [List.getElem?_cons_zero] at hx
                  cases hx
                  simp [hfa]
              | succ i =>
                  rw [List.getElem?_cons_succ] at hx ⊢
                  exact hget i x hx

/-- Every output of a successful loop comes from some input. -/
lemma mapOrFail_mem {β γ : Type} (f : β → Option γ) :
    ∀ (l : List β) (bs : List γ), mapOrFail f l = some bs →
      ∀ b ∈ bs, ∃ a ∈ l, f a = some b := by
  intro l
  induction l with
  | nil =>
      intro bs h
      simp [mapOrFail] at h
      subst h
      intro b hb
      cases hb
  | cons a l ih =>
      intro bs h
      cases hfa : f a with
      | none => simp [mapOrFail, hfa] at h
      | some b0 =>
          cases hrec : mapOrFail f l with
          | none => simp [mapOrFail, hfa, hrec] at h
          | some bs' =>
              simp [mapOrFail, hfa, hrec] at h
              subst h
              intro b hb
              rcases List.mem_cons.mp hb with rfl | hb'
              · exact ⟨a, List.mem_cons_self a l, hfa⟩
              · obtain ⟨x, hx, hfx⟩ := ih bs' hrec b hb'
                exact ⟨x, List.mem_cons_of_mem a hx, hfx⟩

/-- `list.index` succeeds exactly on the members of the list. -/
lemma listIndex_isSome_of_mem {β : Type} [DecidableEq β] (l : List β)
    (v : β) (h : v ∈ l) : (listIndex l v).isSome := by
  induction l with
  | nil => cases h
  | cons a l ih =>
      by_cases hav : a = v
      · simp [listIndex, hav]
      · have hv : v ∈ l := by
          rcases List.mem_cons.mp h with rfl | hv
          · exact absurd rfl hav
          · exact hv
        simp only [listIndex, if_neg hav]
        simpa [Option.isSome_map] using ih hv

/-- An uncaught failure in the body of a sequential fold aborts the whole
fold: no partial state survives. -/
lemma foldlM_eq_none {β σ : Type} (g : σ → β → Option σ) :
    ∀ (l : List β) (a0 : β), a0 ∈ l → (∀ st, g st a0 = none) →
      ∀ ini, l.foldlM g ini = none := by
  intro l
  induction l with
  | nil => intro a0 h; cases h
  | cons a l ih =>
      intro a0 h hfail ini
      rcases List.mem_cons.mp h with rfl | h'
      · simp [List.foldlM_cons, hfail ini]
      · cases hga : g ini a with
        | none => simp [List.foldlM_cons, hga]
        | some st =>
            simp [List.foldlM_cons, hga]
            exact ih a0 h' hfail st

/-- Inversion of a successful `buildXY`: the inputs are the signatures in
collection order and the targets are the successfully looked-up anchors. -/
lemma buildXY_inv {D Sg α : Type} [LinearOrderedField α]
    (stream2sig : D → Nat → Sg) (collection : List (Participant D))
    (th : List (α × α)) (order : Nat) (x : List Sg) (y : List (α × α))
    (h : buildXY stream2sig collection th order = some (x, y)) :
    x = collection.map (fun X => stream2sig X.data order) ∧
    mapOrFail (fun X => th[X.diagnosis]?) collection = some y := by
  cases hm : mapOrFail (fun X => th[X.diagnosis]?) collection with
  | none => simp [buildXY, hm] at h
  | some y' =>
      simp [buildXY, hm] at h
      exact ⟨h.1.symm, by rw [h.2]⟩

/-- When the anchor list is nonempty and every diagnosis is in range, every
stage of `test` succeeds and the returned pair is exactly the two sklearn
scores of the label lists. -/
lemma test_spec {D Sg α : Type} [LinearOrderedField α]
    (stream2sig : D → Nat → Sg) (regPredict : List Sg → List (α × α))
    (accuracy_score roc_auc_score : List Nat → List Nat → α)
    (collection : List (Participant D)) (th : List (α × α)) (order : Nat)
    (hth : th ≠ []) (hd : ∀ X ∈ collection, X.diagnosis < th.length) :
    ∃ x y predicted_labels y_labels,
      buildXY stream2sig collection th order = some (x, y) ∧
      mapOrFail (fun val => listIndex th val)
        ((regPredict x).map (fun prediction => _findMin prediction th)) =
        some predicted_labels ∧
      mapOrFail (fun val => listIndex th val) y = some y_labels ∧
      test stream2sig regPredict accuracy_score roc_auc_score collection th
          order =
        some (accuracy_score y_labels predicted_labels,
          roc_auc_score y_labels predicted_labels) := by
  have hy : ∀ X ∈ collection, ((fun X => th[X.diagnosis]?) X).isSome := by
    intro X hX
    have hlt := hd X hX
    simp [List.getElem?_eq_getElem hlt]
  obtain ⟨y, hy'⟩ := mapOrFail_isSome _ collection hy
  have hbuild : buildXY stream2sig collection th order =
      some (collection.map (fun X => stream2sig X.data order), y) := by
    simp [buildXY, hy']
  have hpred : ∀ v ∈ (regPredict
        (collection.map (fun X => stream2sig X.data order))).map
        (fun prediction => _findMin prediction th),
      ((fun val => listIndex th val) v).isSome := by
    intro v hv
    obtain ⟨pr, -, rfl⟩ := List.mem_map.mp hv
    exact listIndex_isSome_of_mem th _ (findMin_mem pr th hth)
  obtain ⟨predicted_labels, hpl⟩ := mapOrFail_isSome _ _ hpred
  have hymem : ∀ v ∈ y, ((fun val => listIndex th val) v).isSome := by
    intro v hv
    obtain ⟨X, hX, hfx⟩ := mapOrFail_mem _ collection y hy' v hv
    exact listIndex_isSome_of_mem th v (List.getElem?_mem hfx)
  obtain ⟨y_labels, hyl⟩ := mapOrFail_isSome _ y hymem
  refine ⟨_, y, predicted_labels, y_labels, hbuild, hpl, hyl, ?_⟩
  simp [test, hbuild, hpl, hyl]

/-- Claim C1: on a nonempty list of points, `_findMin` returns an element of
the list whose Euclidean distance to `p` is least. -/
theorem C1_findMin_nearest (p : ℝ × ℝ) (A : List (ℝ × ℝ)) (h : A ≠ []) :
    _findMin p A ∈ A ∧
      ∀ q ∈ A, Real.sqrt (sqDist (_findMin p A) p) ≤
        Real.sqrt (sqDist q p) :=
  ⟨findMin_mem p A h,
    fun q hq => Real.sqrt_le_sqrt (findMin_min p A h q hq)⟩

/-- Witness for C1 at `p = (0, 0)`, `A = [(1, 0), (3, 0)]`. -/
theorem C1_findMin_nearest_witness :
    (([((1 : ℝ), 0), (3, 0)] : List (ℝ × ℝ)) ≠ []) ∧
      (_findMin ((0 : ℝ), 0) [((1 : ℝ), 0), (3, 0)] ∈
          ([((1 : ℝ), 0), (3, 0)] : List (ℝ × ℝ)) ∧
        ∀ q ∈ ([((1 : ℝ), 0), (3, 0)] : List (ℝ × ℝ)),
          Real.sqrt (sqDist (_findMin ((0 : ℝ), 0) [((1 : ℝ), 0), (3, 0)])
              ((0 : ℝ), 0)) ≤
            Real.sqrt (sqDist q ((0 : ℝ), 0))) :=
  ⟨by simp, C1_findMin_nearest ((0 : ℝ), 0) [((1 : ℝ), 0), (3, 0)] (by simp)⟩

/-- Claim C10: on the empty list `_findMin` returns `(0, 0)` (the sentinel's
point, not an element of the list); on a nonempty list it returns the
earliest point of least distance: everything before it in the list is
strictly farther (the comparison being strict), everything after at least as
far, so the result is deterministic. -/
theorem C10_findMin_empty_and_ties {α : Type} [LinearOrderedField α]
    (p : α × α) (A : List (α × α)) (h : A ≠ []) :
    _findMin p ([] : List (α × α)) = ((0 : α), 0) ∧
      ∃ B C, A = B ++ _findMin p A :: C ∧
        (∀ q ∈ B, sqDist (_findMin p A) p < sqDist q p) ∧
        (∀ q ∈ C, sqDist (_findMin p A) p ≤ sqDist q p) :=
  ⟨rfl, findMin_decomp p A h⟩

/-- Witness for C10 at `p = (0, 0)` and three points all at distance 5. -/
theorem C10_findMin_empty_and_ties_witness :
    (([((3 : ℚ), 4), (0, 5), (5, 0)] : List (ℚ × ℚ)) ≠ []) ∧
      (_findMin ((0 : ℚ), 0) ([] : List (ℚ × ℚ)) = ((0 : ℚ), 0) ∧
        ∃ B C, ([((3 : ℚ), 4), (0, 5), (5, 0)] : List (ℚ × ℚ)) =
            B ++ _findMin ((0 : ℚ), 0) [((3 : ℚ), 4), (0, 5), (5, 0)] :: C ∧
          (∀ q ∈ B, sqDist (_findMin ((0 : ℚ), 0)
              [((3 : ℚ), 4), (0, 5), (5, 0)]) ((0 : ℚ), 0) <
              sqDist q ((0 : ℚ), 0)) ∧
          (∀ q ∈ C, sqDist (_findMin ((0 : ℚ), 0)
              [((3 : ℚ), 4), (0, 5), (5, 0)]) ((0 : ℚ), 0) ≤
              sqDist q ((0 : ℚ), 0))) :=
  ⟨by decide,
    C10_findMin_empty_and_ties ((0 : ℚ), 0)
      [((3 : ℚ), 4), (0, 5), (5, 0)] (by decide)⟩

/-- Claim C2: for a collection whose lookups all succeed, the loop shared by
`fit` and `test` produces one input and one target per participant, in
collection order: `x[i]` is the order-2 signature of participant `i`'s data
and `y[i]` is `threshold[X_i.diagnosis]`; `fit` then trains the forest on
exactly these lists. -/
theorem C2_xy_in_collection_order {D Sg Rg α : Type} [LinearOrderedField α]
    (stream2sig : D → Nat → Sg)
    (randomForestFit : List Sg → List (α × α) → Rg)
    (collection : List (Participant D)) (th : List (α × α))
    (x : List Sg) (y : List (α × α))
    (h : buildXY stream2sig collection th 2 = some (x, y)) :
    x.length = collection.length ∧ y.length = collection.length ∧
      (∀ (i : Nat) (X : Participant D), collection[i]? = some X →
        x[i]? = some (stream2sig X.data 2) ∧
        y[i]? = th[X.diagnosis]?) ∧
      fit stream2sig randomForestFit collection th 2 =
        some (randomForestFit x y) := by
  obtain ⟨hx, hy⟩ := buildXY_inv stream2sig collection th 2 x y h
  obtain ⟨hlen, hget⟩ := mapOrFail_get _ collection y hy
  refine ⟨by rw [hx]; simp, hlen, ?_, ?_⟩
  · intro i X hX
    constructor
    · rw [hx, List.getElem?_map, hX]
      rfl
    · exact hget i X hX
  · simp [fit, h]

/-- Witness for C2 on a one-participant collection over `ℚ`. -/
theorem C2_xy_in_collection_order_witness :
    buildXY (fun (_ : Unit) (_ : Nat) => (7 : ℚ))
        [Participant.mk () 0] [((1 : ℚ), 0)] 2 =
      some ([(7 : ℚ)], [((1 : ℚ), 0)]) ∧
      (([(7 : ℚ)]).length = ([Participant.mk () 0]).length ∧
        ([((1 : ℚ), 0)] : List (ℚ × ℚ)).length =
          ([Participant.mk () 0]).length ∧
        (∀ (i : Nat) (X : Participant Unit), ([Participant.mk () 0])[i]? = some X →
          ([(7 : ℚ)])[i]? = some ((fun (_ : Unit) (_ : Nat) => (7 : ℚ))
              X.data 2) ∧
          (([((1 : ℚ), 0)] : List (ℚ × ℚ)))[i]? =
            ([((1 : ℚ), 0)] : List (ℚ × ℚ))[X.diagnosis]?) ∧
        fit (fun (_ : Unit) (_ : Nat) => (7 : ℚ))
            (fun x y => (x, y)) [Participant.mk () 0] [((1 : ℚ), 0)] 2 =
          some ((fun (x : List ℚ) (y : List (ℚ × ℚ)) => (x, y))
            [(7 : ℚ)] [((1 : ℚ), 0)])) :=
  ⟨rfl,
    C2_xy_in_collection_order (fun (_ : Unit) (_ : Nat) => (7 : ℚ))
      (fun x y => (x, y)) [Participant.mk () 0] [((1 : ℚ), 0)]
      [(7 : ℚ)] [((1 : ℚ), 0)] rfl⟩

/-- Claim C3: the hardcoded `threshold` maps the three diagnoses, in order,
to the three anchors `(1, 0)`, `(0, 1)` and `(-1/√2, -1/√2)`, each of
Euclidean norm one. -/
theorem C3_threshold_unit_anchors :
    threshold.length = 3 ∧
      threshold[0]? = some (1, 0) ∧
      threshold[1]? = some (0, 1) ∧
      threshold[2]? = some (-(1 / Real.sqrt 2), -(1 / Real.sqrt 2)) ∧
      ∀ q ∈ threshold, Real.sqrt (sqDist q (0, 0)) = 1 := by
  refine ⟨rfl, rfl, rfl, rfl, ?_⟩
  intro q hq
  have h2 : Real.sqrt 2 ^ 2 = 2 := Real.sq_sqrt (by norm_num)
  have hne : Real.sqrt 2 ≠ 0 := by positivity
  simp only [threshold, List.mem_cons, List.not_mem_nil, or_false] at hq
  rcases hq with rfl | rfl | rfl
  · rw [show sqDist ((1 : ℝ), 0) ((0 : ℝ), 0) = 1 by norm_num [sqDist]]
    exact Real.sqrt_one
  · rw [show sqDist ((0 : ℝ), 1) ((0 : ℝ), 0) = 1 by norm_num [sqDist]]
    exact Real.sqrt_one
  · rw [show sqDist (-(1 / Real.sqrt 2), -(1 / Real.sqrt 2)) ((0 : ℝ), 0)
        = 1 by
      simp only [sqDist]
      field_simp]
    exact Real.sqrt_one

/-- Witness for C3 at the first anchor. -/
theorem C3_threshold_unit_anchors_witness :
    ((1 : ℝ), (0 : ℝ)) ∈ threshold ∧
      Real.sqrt (sqDist ((1 : ℝ), (0 : ℝ)) (0, 0)) = 1 :=
  ⟨by simp [threshold],
    C3_threshold_unit_anchors.2.2.2.2 ((1 : ℝ), (0 : ℝ))
      (by simp [threshold])⟩

/-- Claim C4: the nested loops visit each unordered pair of distinct groups
exactly once — three pairs — and the run records exactly one accuracy and
one AUC value, in the `(group1, group2)` cell of the respective table. -/
theorem C4_pairs_each_once :
    mainPairs = [(Group.healthy, Group.bipolar),
        (Group.healthy, Group.borderline),
        (Group.bipolar, Group.borderline)] ∧
      (∀ g1 g2 : Group, g1 ≠ g2 →
        mainPairs.count (g1, g2) + mainPairs.count (g2, g1) = 1) ∧
      (∀ pr ∈ mainPairs, pr.1 ≠ pr.2) ∧
      (∀ {α : Type} (runModel : Group → Group → α × α) (g1 g2 : Group),
        (mainRun runModel).accuracy_results g1 g2 =
          if (g1, g2) ∈ mainPairs then some (runModel g1 g2).1 else none) ∧
      (∀ {α : Type} (runModel : Group → Group → α × α) (g1 g2 : Group),
        (mainRun runModel).auc_results g1 g2 =
          if (g1, g2) ∈ mainPairs then some (runModel g1 g2).2 else none) := by
  have hmp : mainPairs = [(Group.healthy, Group.bipolar),
      (Group.healthy, Group.borderline),
      (Group.bipolar, Group.borderline)] := by decide
  refine ⟨hmp, ?_, by decide, ?_, ?_⟩
  · intro g1 g2 hne
    cases g1 <;> cases g2 <;> first
      | exact absurd rfl hne
      | decide
  · intro α runModel g1 g2
    rw [mainRun, hmp]
    cases g1 <;> cases g2 <;>
      simp [hmp, runPair, recordScores, initState]
  · intro α runModel g1 g2
    rw [mainRun, hmp]
    cases g1 <;> cases g2 <;>
      simp [hmp, runPair, recordScores, initState]

/-- Witness for C4: the pair (healthy, borderline) is counted once, and
(healthy, bipolar) is a pair of distinct groups. -/
theorem C4_pairs_each_once_witness :
    (Group.healthy ≠ Group.borderline ∧
      mainPairs.count (Group.healthy, Group.borderline) +
        mainPairs.count (Group.borderline, Group.healthy) = 1) ∧
      ((Group.healthy, Group.bipolar) ∈ mainPairs ∧
        (Group.healthy, Group.bipolar).1 ≠ (Group.healthy, Group.bipolar).2) :=
  ⟨⟨by decide, C4_pairs_each_once.2.1 Group.healthy Group.borderline
      (by decide)⟩,
    ⟨by decide, C4_pairs_each_once.2.2.1 (Group.healthy, Group.bipolar)
      (by decide)⟩⟩

/-- Claim C5: the operations of the main script happen in the fixed order
load → fit → test → record for each pair in loop order, with the two tables
printed only after the last pair. -/
theorem C5_operation_order :
    mainTrace =
      [Event.load Group.healthy Group.bipolar,
       Event.fitCall Group.healthy Group.bipolar,
       Event.testCall Group.healthy Group.bipolar,
       Event.record Group.healthy Group.bipolar,
       Event.load Group.healthy Group.borderline,
       Event.fitCall Group.healthy Group.borderline,
       Event.testCall Group.healthy Group.borderline,
       Event.record Group.healthy Group.borderline,
       Event.load Group.bipolar Group.borderline,
       Event.fitCall Group.bipolar Group.borderline,
       Event.testCall Group.bipolar Group.borderline,
       Event.record Group.bipolar Group.borderline,
       Event.printAccuracyTable, Event.printAucTable] := by decide

/-- Claim C6: under the in-range precondition, `test` returns exactly the
pair `(accuracy_score, roc_auc_score)` of the two label lists, where the
predicted label of row `i` is the index in `threshold` of the anchor nearest
to prediction `i`, and the true label of participant `i` is the index in
`threshold` of the participant's own anchor `threshold[diagnosis]`. -/
theorem C6_test_scores {D Sg α : Type} [LinearOrderedField α]
    (stream2sig : D → Nat → Sg) (regPredict : List Sg → List (α × α))
    (accuracy_score roc_auc_score : List Nat → List Nat → α)
    (collection : List (Participant D)) (th : List (α × α)) (order : Nat)
    (hth : th ≠ []) (hd : ∀ X ∈ collection, X.diagnosis < th.length) :
    ∃ x y predicted_labels y_labels,
      buildXY stream2sig collection th order = some (x, y) ∧
      test stream2sig regPredict accuracy_score roc_auc_score collection th
          order =
        some (accuracy_score y_labels predicted_labels,
          roc_auc_score y_labels predicted_labels) ∧
      predicted_labels.length = (regPredict x).length ∧
      y_labels.length = collection.length ∧
      (∀ (i : Nat) (prediction : α × α),
        (regPredict x)[i]? = some prediction →
        predicted_labels[i]? = listIndex th (_findMin prediction th)) ∧
      (∀ (i : Nat) (X : Participant D), collection[i]? = some X →
        y_labels[i]? = Option.bind th[X.diagnosis]?
          (fun t => listIndex th t)) := by
  obtain ⟨x, y, predicted_labels, y_labels, hbuild, hpl, hyl, htest⟩ :=
    test_spec stream2sig regPredict accuracy_score roc_auc_score collection
      th order hth hd
  obtain ⟨hx, hy⟩ := buildXY_inv stream2sig collection th order x y hbuild
  obtain ⟨hyllen, hylget⟩ := mapOrFail_get _ y y_labels hyl
  obtain ⟨hpllen, hplget⟩ := mapOrFail_get _ _ predicted_labels hpl
  obtain ⟨hylen, hyget⟩ := mapOrFail_get _ collection y hy
  refine ⟨x, y, predicted_labels, y_labels, hbuild, htest, ?_, ?_, ?_, ?_⟩
  · rw [hpllen, List.length_map]
  · rw [hyllen, hylen]
  · intro i prediction hpredi
    have : ((regPredict x).map (fun prediction => _findMin prediction th))[i]?
        = some (_findMin prediction th) := by
      rw [List.getElem?_map, hpredi]
      rfl
    exact hplget i _ this
  · intro i X hXi
    have hyi : y[i]? = th[X.diagnosis]? := hyget i X hXi
    have hX : X ∈ collection := List.getElem?_mem hXi
    have hlt := hd X hX
    have hsome : th[X.diagnosis]? = some th[X.diagnosis] :=
      List.getElem?_eq_getElem hlt
    rw [hsome] at hyi
    rw [hylget i _ hyi, hsome]
    rfl

/-- Witness for C6 on a two-participant collection over `ℚ`. -/
theorem C6_test_scores_witness :
    (([((1 : ℚ), 0), (0, 1)] : List (ℚ × ℚ)) ≠ [] ∧
      ∀ X ∈ [Participant.mk () 1, Participant.mk () 0],
        X.diagnosis < ([((1 : ℚ), 0), (0, 1)] : List (ℚ × ℚ)).length) ∧
      ∃ (x : List ℚ) (y : List (ℚ × ℚ)) (predicted_labels y_labels : List Nat),
        buildXY (fun (_ : Unit) (_ : Nat) => (3 : ℚ))
            [Participant.mk () 1, Participant.mk () 0]
            [((1 : ℚ), 0), (0, 1)] 2 = some (x, y) ∧
        test (fun (_ : Unit) (_ : Nat) => (3 : ℚ))
            (fun l => l.map (fun s => (s, (0 : ℚ))))
            (fun _ _ => (5 : ℚ)) (fun _ _ => (7 : ℚ))
            [Participant.mk () 1, Participant.mk () 0]
            [((1 : ℚ), 0), (0, 1)] 2 = some ((5 : ℚ), (7 : ℚ)) ∧
        predicted_labels.length =
          (x.map (fun s => (s, (0 : ℚ)))).length ∧
        y_labels.length =
          ([Participant.mk () 1, Participant.mk () 0]).length ∧
        (∀ (i : Nat) (prediction : ℚ × ℚ),
          (x.map (fun s => (s, (0 : ℚ))))[i]? = some prediction →
          predicted_labels[i]? = listIndex [((1 : ℚ), 0), (0, 1)]
            (_findMin prediction [((1 : ℚ), 0), (0, 1)])) ∧
        (∀ (i : Nat) (X : Participant Unit),
          ([Participant.mk () 1, Participant.mk () 0])[i]? = some X →
          y_labels[i]? = Option.bind
            (([((1 : ℚ), 0), (0, 1)] : List (ℚ × ℚ)))[X.diagnosis]?
            (fun t => listIndex [((1 : ℚ), 0), (0, 1)] t)) := by
  refine ⟨⟨by decide, by decide⟩, ?_⟩
  exact C6_test_scores (fun (_ : Unit) (_ : Nat) => (3 : ℚ))
    (fun l => l.map (fun s => (s, (0 : ℚ))))
    (fun _ _ => (5 : ℚ)) (fun _ _ => (7 : ℚ))
    [Participant.mk () 1, Participant.mk () 0]
    [((1 : ℚ), 0), (0, 1)] 2 (by decide) (by decide)

/-- Claim C7: neither `fit`, `test`, `_findMin` nor the main script installs
any error handling: a failing anchor lookup makes `test` fail with no
result, and a failing load/fit/test pipeline for any visited pair aborts the
whole main run, recording nothing. -/
theorem C7_failures_propagate :
    (∀ {D Sg α : Type} [LinearOrderedField α]
        (stream2sig : D → Nat → Sg)
        (regPredict : List Sg → List (α × α))
        (accuracy_score roc_auc_score : List Nat → List Nat → α)
        (collection : List (Participant D)) (th : List (α × α))
        (order : Nat) (X : Participant D),
        X ∈ collection → th[X.diagnosis]? = none →
        test stream2sig regPredict accuracy_score roc_auc_score collection
          th order = none) ∧
      (∀ {α : Type} (runModel : Group → Group → Option (α × α))
        (pr : Group × Group), pr ∈ mainPairs →
        runModel pr.1 pr.2 = none → mainRunE runModel = none) := by
  constructor
  · intro D Sg α inst stream2sig regPredict accuracy_score roc_auc_score
      collection th order X hX hfail
    have hm : mapOrFail (fun X => th[X.diagnosis]?) collection = none :=
      mapOrFail_eq_none (fun X => th[X.diagnosis]?) collection X hX hfail
    have hb : buildXY stream2sig collection th order = none := by
      simp [buildXY, hm]
    simp [test, hb]
  · intro α runModel pr hpr hfail
    rw [mainRunE]
    exact foldlM_eq_none _ mainPairs pr hpr
      (fun st => by rw [hfail]; rfl) _

/-- Witness for C7: an out-of-range diagnosis makes `test` fail, and an
always-failing pipeline makes the main run produce nothing. -/
theorem C7_failures_propagate_witness :
    (Participant.mk () 5 ∈ [Participant.mk () 5] ∧
      (([((1 : ℚ), 0)] : List (ℚ × ℚ)))[(Participant.mk () 5).diagnosis]? =
        none ∧
      test (fun (_ : Unit) (_ : Nat) => (0 : ℚ))
        (fun x => x.map (fun _ => ((0 : ℚ), 0)))
        (fun _ _ => 0) (fun _ _ => 0)
        [Participant.mk () 5] [((1 : ℚ), 0)] 2 = none) ∧
      ((Group.healthy, Group.bipolar) ∈ mainPairs ∧
        mainRunE (fun (_ _ : Group) => (none : Option (ℚ × ℚ))) = none) :=
  ⟨⟨by decide, by decide,
      C7_failures_propagate.1 (fun (_ : Unit) (_ : Nat) => (0 : ℚ))
        (fun x => x.map (fun _ => ((0 : ℚ), 0)))
        (fun _ _ => 0) (fun _ _ => 0)
        [Participant.mk () 5] [((1 : ℚ), 0)] 2 (Participant.mk () 5)
        (by decide) (by decide)⟩,
    ⟨by decide,
      C7_failures_propagate.2 (fun (_ _ : Group) => (none : Option (ℚ × ℚ)))
        (Group.healthy, Group.bipolar) (by decide) rfl⟩⟩

/-- Claim C8: one iteration of the main loop writes the two scores into the
`(group1, group2)` cells of the two tables and leaves every other cell of
both tables unchanged; the tables are the only state threaded from one
iteration to the next. -/
theorem C8_iteration_frame {α : Type} (runModel : Group → Group → α × α)
    (st : MainState α) (pr : Group × Group) (a b : Group)
    (h : ¬(a = pr.1 ∧ b = pr.2)) :
    (runPair runModel st pr).accuracy_results a b =
        st.accuracy_results a b ∧
      (runPair runModel st pr).auc_results a b = st.auc_results a b ∧
      (runPair runModel st pr).accuracy_results pr.1 pr.2 =
        some (runModel pr.1 pr.2).1 ∧
      (runPair runModel st pr).auc_results pr.1 pr.2 =
        some (runModel pr.1 pr.2).2 := by
  simp [runPair, recordScores, h]

/-- Witness for C8 at the cell (borderline, healthy) during the iteration
for (healthy, bipolar). -/
theorem C8_iteration_frame_witness :
    ¬(Group.borderline = (Group.healthy, Group.bipolar).1 ∧
        Group.healthy = (Group.healthy, Group.bipolar).2) ∧
      ((runPair (fun _ _ => ((1 : ℚ), 2)) (initState ℚ)
            (Group.healthy, Group.bipolar)).accuracy_results
          Group.borderline Group.healthy =
        (initState ℚ).accuracy_results Group.borderline Group.healthy ∧
      (runPair (fun _ _ => ((1 : ℚ), 2)) (initState ℚ)
            (Group.healthy, Group.bipolar)).auc_results
          Group.borderline Group.healthy =
        (initState ℚ).auc_results Group.borderline Group.healthy ∧
      (runPair (fun _ _ => ((1 : ℚ), 2)) (initState ℚ)
            (Group.healthy, Group.bipolar)).accuracy_results
          (Group.healthy, Group.bipolar).1 (Group.healthy, Group.bipolar).2 =
        some ((fun (_ _ : Group) => ((1 : ℚ), 2)) Group.healthy
          Group.bipolar).1 ∧
      (runPair (fun _ _ => ((1 : ℚ), 2)) (initState ℚ)
            (Group.healthy, Group.bipolar)).auc_results
          (Group.healthy, Group.bipolar).1 (Group.healthy, Group.bipolar).2 =
        some ((fun (_ _ : Group) => ((1 : ℚ), 2)) Group.healthy
          Group.bipolar).2) :=
  ⟨by decide,
    C8_iteration_frame (fun _ _ => ((1 : ℚ), 2)) (initState ℚ)
      (Group.healthy, Group.bipolar) Group.borderline Group.healthy
      (by decide)⟩

/-- Claim C9: under the precondition that `threshold` is nonempty and every
participant's diagnosis is a valid index into it, every label lookup in
`test` succeeds: `test` returns a result instead of raising. -/
theorem C9_label_lookups_never_fail {D Sg α : Type} [LinearOrderedField α]
    (stream2sig : D → Nat → Sg) (regPredict : List Sg → List (α × α))
    (accuracy_score roc_auc_score : List Nat → List Nat → α)
    (collection : List (Participant D)) (th : List (α × α)) (order : Nat)
    (hth : th ≠ []) (hd : ∀ X ∈ collection, X.diagnosis < th.length) :
    (test stream2sig regPredict accuracy_score roc_auc_score collection th
      order).isSome := by
  obtain ⟨x, y, predicted_labels, y_labels, -, -, -, htest⟩ :=
    test_spec stream2sig regPredict accuracy_score roc_auc_score collection
      th order hth hd
  rw [htest]
  rfl

/-- Witness for C9 on a one-participant collection over `ℚ`. -/
theorem C9_label_lookups_never_fail_witness :
    (([((2 : ℚ), 0)] : List (ℚ × ℚ)) ≠ [] ∧
      ∀ X ∈ [Participant.mk () 0],
        X.diagnosis < ([((2 : ℚ), 0)] : List (ℚ × ℚ)).length) ∧
      (test (fun (_ : Unit) (_ : Nat) => (1 : ℚ))
        (fun x => x.map (fun s => (0, s)))
        (fun _ _ => 0) (fun _ _ => 1)
        [Participant.mk () 0] [((2 : ℚ), 0)] 2).isSome :=
  ⟨⟨by decide, by decide⟩,
    C9_label_lookups_never_fail (fun (_ : Unit) (_ : Nat) => (1 : ℚ))
      (fun x => x.map (fun s => (0, s)))
      (fun _ _ => 0) (fun _ _ => 1)
      [Participant.mk () 0] [((2 : ℚ), 0)] 2 (by decide) (by decide)⟩

end PairwiseGroupClassification